import Mathlib

/-!
Verification of the RogueMon MVP battle engine
(`src/MVP/backend/battle_engine.py`, with the earlier prototype variant
`src/MVP/MVP_backend/battle_engine.py` embedded where the two differ).

Python numbers are modelled as follows: `int` values are `ℤ`; `float`
values (the attack modifier and the intermediate damage / capture
arithmetic) are exact rationals `ℚ`.  Every float literal that occurs in
the source (`1.0`, `0.75`, `0.0`) is exactly representable, and Python's
`int(...)` on a float is truncation toward zero, modelled by `pyInt`.
-/

/-- Python `int(x)` on a float / rational: truncation toward zero
(`q.num.tdiv q.den` is the numerator divided by the positive denominator,
rounded toward zero). -/
def pyInt (q : ℚ) : ℤ := q.num.tdiv (q.den : ℤ)

/-- A move definition, one entry of `MOVE_DATA` in `battle_engine.py`. -/
structure Move where
  name : String
  type : String
  power : ℤ
  accuracy : ℤ
  category : String
deriving DecidableEq

/-- `MOVE_DATA` from `battle_engine.py` (identical in both variants):
only Tackle and Growl exist in the MVP.  Lookup of an unknown key is a
Python `KeyError`, modelled by `none`. -/
def MOVE_DATA : String → Option Move
  | "tackle" => some { name := "Tackle", type := "Normal", power := 40,
                       accuracy := 100, category := "Physical" }
  | "growl" => some { name := "Growl", type := "Normal", power := 0,
                      accuracy := 100, category := "Status" }
  | _ => none

/-- The `Pokemon` class: a mutable battle-time snapshot.
`attack_modifier` starts at `1.0` and is the only float field. -/
structure Pokemon where
  name : String
  type : String
  level : ℤ
  max_hp : ℤ
  current_hp : ℤ
  attack : ℤ
  defense : ℤ
  special_attack : ℤ
  special_defense : ℤ
  speed : ℤ
  moves : List String
  attack_modifier : ℚ
deriving DecidableEq

namespace Pokemon

/-- `Pokemon.apply_damage`: `self.current_hp = max(self.current_hp - damage, 0)`. -/
def apply_damage (p : Pokemon) (damage : ℤ) : Pokemon :=
  { p with current_hp := max (p.current_hp - damage) 0 }

/-- `Pokemon.apply_stat_change`: Growl multiplies the attack modifier by `0.75`;
any other name is a no-op. -/
def apply_stat_change (p : Pokemon) (move_name : String) : Pokemon :=
  if move_name = "Growl" then
    { p with attack_modifier := p.attack_modifier * (3 / 4 : ℚ) }
  else p

/-- `Pokemon.is_fainted`: `current_hp <= 0`. -/
def is_fainted (p : Pokemon) : Bool := p.current_hp ≤ 0

end Pokemon

/-- The `Battle` class.  The constructor writes `capture_resolve = False`
(a misspelling never read back); every read of the capture flag is
`getattr(battle, "capture_resolved", False)`, so behaviourally the battle
carries a `capture_resolved` flag that starts `False`, which is what we
model. -/
structure Battle where
  player : Pokemon
  enemy : Pokemon
  log : List String
  resolving : Bool
  capture_resolved : Bool
deriving DecidableEq

namespace Battle

/-- `Battle.calculate_damage` (identical in both source variants). -/
def calculate_damage (attacker defender : Pokemon) (move : Move) : ℤ :=
  if move.power = 0 then 0
  else
    let attack_stat : ℚ := (attacker.attack : ℚ) * attacker.attack_modifier
    let defense_stat : ℤ := defender.defense
    let base_damage : ℚ :=
      (((2 * (attacker.level : ℚ) / 5 * 2) * (move.power : ℚ) *
        (attack_stat / ((max 1 defense_stat : ℤ) : ℚ))) / 50) + 2
    pyInt base_damage

/-- `Battle.get_result`: `win` if the enemy fainted (checked first),
`lose` if the player fainted, else `ongoing`. -/
def get_result (b : Battle) : String :=
  if b.enemy.is_fainted then "win"
  else if b.player.is_fainted then "lose"
  else "ongoing"

end Battle

/-- One accuracy draw: `random.randint(1,100)` modelled by an oracle list
of rolls, consumed one per executed action; drawing from an exhausted
oracle yields 1 (theorems quantify over the oracle, so this default is
never load-bearing). -/
def drawRoll (rolls : List ℤ) : ℤ × List ℤ :=
  match rolls with
  | [] => (1, [])
  | r :: rest => (r, rest)

namespace Battle

/-- One iteration of the action loop in `Battle.take_turn`: the actor
(player iff `actorIsPlayer`) acts against the other combatant with `move`.
Skips if either side is fainted (no roll drawn); otherwise draws the
accuracy roll, then applies the Physical or Growl effect and appends the
corresponding log line. -/
def doAction (st : Battle × List ℤ) (actorIsPlayer : Bool) (move : Move) :
    Battle × List ℤ :=
  let b := st.1
  let actor := if actorIsPlayer then b.player else b.enemy
  let target := if actorIsPlayer then b.enemy else b.player
  if actor.is_fainted || target.is_fainted then st
  else
    let rr := drawRoll st.2
    let roll := rr.1
    let rest := rr.2
    if move.accuracy < roll then
      ({ b with log := b.log ++ [actor.name ++ "\x27s " ++ move.name ++ " missed!"] }, rest)
    else if move.category = "Physical" then
      let damage := calculate_damage actor target move
      let target' := target.apply_damage damage
      let b' := if actorIsPlayer then { b with enemy := target' }
                else { b with player := target' }
      ({ b' with log := b.log ++
          [actor.name ++ " used " ++ move.name ++ "! " ++ target.name ++
           " took " ++ toString damage ++ " damage."] }, rest)
    else if move.category = "Status" ∧ move.name = "Growl" then
      let target' := target.apply_stat_change move.name
      let b' := if actorIsPlayer then { b with enemy := target' }
                else { b with player := target' }
      ({ b' with log := b.log ++
          [actor.name ++ " used Growl! " ++ target.name ++ "\x27s attack fell."] }, rest)
    else (b, rest)

/-- Turn order of `Battle.take_turn`: `true` means the player acts first.
Source: `(self.player, self.enemy) if self.player.speed >= self.enemy.speed
else (self.enemy, self.player)`. -/
def playerFirst (b : Battle) : Bool := b.enemy.speed ≤ b.player.speed

/-- `Battle.take_turn` (identical in both source variants): resolve both
move keys, order by speed with the player-first tie-break, run the two
actions.  An unknown move key raises `KeyError`, modelled by `none`. -/
def take_turn (b : Battle) (player_move_name enemy_move_name : String)
    (rolls : List ℤ) : Option Battle :=
  match MOVE_DATA player_move_name, MOVE_DATA enemy_move_name with
  | some player_move, some enemy_move =>
    let first_move := if b.playerFirst then player_move else enemy_move
    let second_move := if b.playerFirst then enemy_move else player_move
    let st1 := doAction (b, rolls) b.playerFirst first_move
    let st2 := doAction st1 (!b.playerFirst) second_move
    some st2.1
  | _, _ => none

end Battle

/-! ## Roster data -/

/-- Bulbasaur's battle-time snapshot from `STARTER_POKEMON`. -/
def bulbasaur : Pokemon :=
  { name := "Bulbasaur", type := "Grass/Poison", level := 5, max_hp := 45,
    current_hp := 45, attack := 49, defense := 49, special_attack := 65,
    special_defense := 65, speed := 45, moves := ["tackle", "growl"],
    attack_modifier := 1 }

/-- Charmander's battle-time snapshot from `STARTER_POKEMON`. -/
def charmander : Pokemon :=
  { name := "Charmander", type := "Fire", level := 5, max_hp := 39,
    current_hp := 39, attack := 52, defense := 43, special_attack := 60,
    special_defense := 50, speed := 65, moves := ["tackle", "growl"],
    attack_modifier := 1 }

/-- Squirtle's battle-time snapshot from `STARTER_POKEMON`. -/
def squirtle : Pokemon :=
  { name := "Squirtle", type := "Water", level := 5, max_hp := 44,
    current_hp := 44, attack := 48, defense := 65, special_attack := 50,
    special_defense := 64, speed := 43, moves := ["tackle", "growl"],
    attack_modifier := 1 }

def tackleMove : Move :=
  { name := "Tackle", type := "Normal", power := 40, accuracy := 100,
    category := "Physical" }

def growlMove : Move :=
  { name := "Growl", type := "Normal", power := 0, accuracy := 100,
    category := "Status" }

/-! ## Registry and endpoint layer

The Flask layer keeps battles in the module-level dict `BATTLES`,
modelled as an association list threaded through each request handler.
Randomness (`random.randint`, `random.choice`) is modelled by oracle
parameters: the accuracy-roll list and, for `battle_turn`, the enemy move
key that `random.choice(battle.enemy.moves)` picked. -/

/-- The `BATTLES` dict: association list from battle id to `Battle`. -/
def Reg := List (String × Battle)

/-- Dict lookup `BATTLES[battle_id]` / `battle_id in BATTLES`. -/
def regGet : Reg → String → Option Battle
  | [], _ => none
  | (k, b) :: rest, id => if k = id then some b else regGet rest id

/-- Dict write `BATTLES[battle_id] = battle` (replace or insert). -/
def regSet (reg : Reg) (id : String) (b : Battle) : Reg :=
  (id, b) :: List.filter (fun p => decide (p.1 ≠ id)) reg

/-- Dict removal `BATTLES.pop(battle_id, None)`. -/
def regDel (reg : Reg) (id : String) : Reg :=
  List.filter (fun p => decide (p.1 ≠ id)) reg

/-- One combatant's slice of `Battle.serialize`. -/
structure CombatantView where
  name : String
  max_hp : ℤ
  current_hp : ℤ
  attack_modifier : ℚ
deriving DecidableEq

/-- `Battle.serialize`: the JSON-friendly snapshot (player, enemy, status,
full running message log). -/
structure SerializedState where
  player : CombatantView
  enemy : CombatantView
  status : String
  message_log : List String
deriving DecidableEq

def Battle.serialize (b : Battle) : SerializedState :=
  { player := { name := b.player.name, max_hp := b.player.max_hp,
                current_hp := b.player.current_hp,
                attack_modifier := b.player.attack_modifier },
    enemy := { name := b.enemy.name, max_hp := b.enemy.max_hp,
               current_hp := b.enemy.current_hp,
               attack_modifier := b.enemy.attack_modifier },
    status := b.get_result,
    message_log := b.log }

/-- The JSON payload of a successful `/battle/turn` response:
`battle.serialize()` plus `battle_id` and the per-turn delta `turn_log`. -/
structure TurnPayload where
  state : SerializedState
  battle_id : String
  turn_log : List String
deriving DecidableEq

/-- Responses of the `/battle/turn` endpoint.  `notFound` is the 404,
`turnInProgress` the 409, `keyError` the propagated exception of an
unknown move key (Flask 500), `ok` the 200 payload. -/
inductive TurnResponse where
  | notFound
  | turnInProgress
  | keyError
  | ok (payload : TurnPayload)
deriving DecidableEq

/-- The de-duplication loop of `battle_turn`: append each line unless it
equals the last line already kept. -/
def collapseDups (l : List String) : List String :=
  l.foldl (fun acc line => if acc.getLast? = some line then acc else acc ++ [line]) []

/-- `battle_turn` of `src/MVP/backend/battle_engine.py` (the variant wired
into the live app).  Net effect on the registry of Python's in-place
mutation plus the `finally` that clears `resolving` is written as a single
`regSet`.  The pokedex-id decoration of the payload is presentation glue
and not modelled.  Note this variant never removes the battle from
`BATTLES`. -/
def battle_turn (reg : Reg) (battle_id : String) (player_move : String)
    (enemy_move : String) (rolls : List ℤ) : TurnResponse × Reg :=
  match regGet reg battle_id with
  | none => (.notFound, reg)
  | some battle =>
    if battle.resolving then (.turnInProgress, reg)
    else if battle.get_result ≠ "ongoing" then
      (.ok { state := battle.serialize, battle_id := battle_id, turn_log := [] }, reg)
    else
      let battle0 := { battle with resolving := true }
      let before_len := battle0.log.length
      match battle0.take_turn player_move enemy_move rolls with
      | none =>
        (.keyError, regSet reg battle_id { battle0 with resolving := false })
      | some battle1 =>
        let turn_log := collapseDups (battle1.log.drop before_len)
        let payload : TurnPayload :=
          { state := battle1.serialize, battle_id := battle_id, turn_log := turn_log }
        (.ok payload, regSet reg battle_id { battle1 with resolving := false })

/-- `battle_turn` of the prototype `src/MVP/MVP_backend/battle_engine.py`:
identical except that, when the status in the freshly built payload is
terminal, the battle is popped from `BATTLES` (after the payload was
constructed); the `finally` then finds the id absent and clears nothing. -/
def battle_turn_mvp (reg : Reg) (battle_id : String) (player_move : String)
    (enemy_move : String) (rolls : List ℤ) : TurnResponse × Reg :=
  match regGet reg battle_id with
  | none => (.notFound, reg)
  | some battle =>
    if battle.resolving then (.turnInProgress, reg)
    else if battle.get_result ≠ "ongoing" then
      (.ok { state := battle.serialize, battle_id := battle_id, turn_log := [] }, reg)
    else
      let battle0 := { battle with resolving := true }
      let before_len := battle0.log.length
      match battle0.take_turn player_move enemy_move rolls with
      | none =>
        (.keyError, regSet reg battle_id { battle0 with resolving := false })
      | some battle1 =>
        let turn_log := collapseDups (battle1.log.drop before_len)
        let payload : TurnPayload :=
          { state := battle1.serialize, battle_id := battle_id, turn_log := turn_log }
        if payload.state.status ≠ "ongoing" then
          (.ok payload, regDel reg battle_id)
        else
          (.ok payload, regSet reg battle_id { battle1 with resolving := false })

/-- The capture success chance of `capture_pokemon`:
`min(95, 35 + int(max(0.0, min(1.0, 1.0 - cur_hp/max_hp)) * 55))` with
`max_hp = max(1, int(enemy.max_hp))` and `cur_hp = max(0, int(enemy.current_hp))`. -/
def captureChance (enemy : Pokemon) : ℤ :=
  let max_hp : ℤ := max 1 enemy.max_hp
  let cur_hp : ℤ := max 0 enemy.current_hp
  let missing_frac : ℚ := 1 - (cur_hp : ℚ) / (max_hp : ℚ)
  min 95 (35 + pyInt (max 0 (min 1 missing_frac) * 55))

/-- Responses of the `/battle/capture` endpoint.  `notFound` is the 404,
`notAllowed` the 400 (result is not `win`), `alreadyResolved` the 409,
`outcome s` the 200 with `success = s`. -/
inductive CaptureResponse where
  | notFound
  | notAllowed
  | alreadyResolved
  | outcome (success : Bool)
deriving DecidableEq

/-- `capture_pokemon` of `src/MVP/backend/battle_engine.py`.  The guard
`if not battle_id or battle_id not in BATTLES` treats the empty string as
falsy.  `roll` is the oracle for `random.randint(1, 100)`.
`battle.capture_resolved = True` is executed before either outcome
return, i.e. on every resolved attempt. -/
def capture_pokemon (reg : Reg) (battle_id : String) (roll : ℤ) :
    CaptureResponse × Reg :=
  if battle_id = "" then (.notFound, reg)
  else
    match regGet reg battle_id with
    | none => (.notFound, reg)
    | some battle =>
      if battle.get_result ≠ "win" then (.notAllowed, reg)
      else if battle.capture_resolved then (.alreadyResolved, reg)
      else
        let chance := captureChance battle.enemy
        let success : Bool := roll ≤ chance
        (.outcome success, regSet reg battle_id { battle with capture_resolved := true })

/-- Non-negativity of the stats `calculate_damage` and `apply_damage`
read; holds for every combatant constructible from the starter roster and
is preserved by turn resolution. -/
def PokemonOK (p : Pokemon) : Prop :=
  0 ≤ p.level ∧ 0 ≤ p.attack ∧ 0 ≤ p.defense ∧ 0 ≤ p.attack_modifier ∧
    0 ≤ p.current_hp

instance (p : Pokemon) : Decidable (PokemonOK p) := by
  unfold PokemonOK; infer_instance

/-- Iterated turn resolution: the player submits `tackle` every turn; each
list entry carries the enemy move picked by `random.choice` and the
accuracy-roll oracle for that turn. -/
def runTurns (b : Battle) : List (String × List ℤ) → Option Battle
  | [] => some b
  | s :: rest =>
    match b.take_turn "tackle" s.1 s.2 with
    | none => none
    | some b' => runTurns b' rest

/-- Repeated submissions against one battle id: fold `battle_turn` over a
list of (player move, enemy move, rolls) requests, keeping the registry. -/
def runEndpoint (battle_id : String) (reg : Reg) :
    List (String × String × List ℤ) → Reg
  | [] => reg
  | s :: rest => runEndpoint battle_id (battle_turn reg battle_id s.1 s.2.1 s.2.2).2 rest

/-- Concrete scenario: Bulbasaur versus a Squirtle reduced to 1 HP. -/
def squirtleAt1 : Pokemon := { squirtle with current_hp := 1 }

def cexBattle : Battle :=
  { player := bulbasaur, enemy := squirtleAt1, log := [], resolving := false,
    capture_resolved := false }

/-- The registry holding the concrete scenario under id `"b1"`. -/
def cexReg : Reg := [("b1", cexBattle)]

/-- The state of the concrete scenario after one turn in which the player's
Tackle lands for 4 damage and faints the enemy before it can act. -/
def cexBattleAfter : Battle :=
  { player := bulbasaur,
    enemy := { squirtleAt1 with current_hp := 0 },
    log := ["Bulbasaur used Tackle! Squirtle took 4 damage."],
    resolving := false, capture_resolved := false }

/-! ## Helper lemmas -/

lemma pyInt_eq_floor (q : ℚ) (h : 0 ≤ q) : pyInt q = ⌊q⌋ := by
  have hn : 0 ≤ q.num := Rat.num_nonneg.mpr h
  rw [pyInt, Int.tdiv_eq_ediv hn (by positivity), Rat.floor_def]

lemma pyInt_eq_ceil (q : ℚ) (h : q < 0) : pyInt q = ⌈q⌉ := by
  have h' : 0 ≤ -q := by linarith
  have : pyInt (-q) = ⌊-q⌋ := pyInt_eq_floor _ h'
  rw [pyInt, Rat.num_neg_eq_neg_num, Rat.den_neg_eq_den, Int.neg_tdiv] at this
  rw [Int.floor_neg] at this
  have := neg_injective this
  rw [pyInt, this]

lemma pyInt_eq (q : ℚ) (z : ℤ) (h0 : 0 ≤ q) (h1 : (z : ℚ) ≤ q)
    (h2 : q < z + 1) : pyInt q = z := by
  rw [pyInt_eq_floor q h0]
  exact Int.floor_eq_iff.mpr ⟨h1, by exact_mod_cast h2⟩

lemma pyInt_le (q : ℚ) (z : ℤ) (h0 : 0 ≤ q) (h1 : (z : ℚ) ≤ q) :
    z ≤ pyInt q := by
  rw [pyInt_eq_floor q h0]; exact Int.le_floor.mpr h1

lemma regGet_regSet_self (reg : Reg) (id : String) (b : Battle) :
    regGet (regSet reg id b) id = some b := by
  simp [regGet, regSet]

lemma capture_already (reg : Reg) (battle_id : String) (roll : ℤ) (b2 : Battle)
    (hid : battle_id ≠ "") (hb : regGet reg battle_id = some b2)
    (hw : b2.get_result = "win") (hcr : b2.capture_resolved = true) :
    capture_pokemon reg battle_id roll = (.alreadyResolved, reg) := by
  simp [capture_pokemon, hid, hb, hw, hcr]

/-! ## Claims -/

/-- C1: `Battle.calculate_damage` returns exactly 0 when `move.power == 0`;
otherwise it returns the truncation toward zero of
`((2 * level / 5 * 2) * power * ((attack * attack_modifier) / max(1, defense))) / 50 + 2`,
with the defender's defense floored at 1 before the division (`pyInt` is
truncation toward zero: floor on non-negatives, ceiling on negatives). -/
theorem claim_C1 (a d : Pokemon) (m : Move) :
    (m.power = 0 → Battle.calculate_damage a d m = 0) ∧
    (m.power ≠ 0 → Battle.calculate_damage a d m =
      pyInt ((((2 * (a.level : ℚ) / 5 * 2) * (m.power : ℚ) *
        (((a.attack : ℚ) * a.attack_modifier) / ((max 1 d.defense : ℤ) : ℚ))) / 50) + 2)) ∧
    (∀ q : ℚ, 0 ≤ q → pyInt q = ⌊q⌋) ∧
    (∀ q : ℚ, q < 0 → pyInt q = ⌈q⌉) := by
  refine ⟨fun h => by simp [Battle.calculate_damage, h],
          fun h => by simp [Battle.calculate_damage, h],
          pyInt_eq_floor, pyInt_eq_ceil⟩

/-- Witness for C1 at the concrete roster data: Growl (power 0) deals 0,
and Tackle from Bulbasaur into Charmander follows the formula. -/
theorem claim_C1_witness :
    Battle.calculate_damage bulbasaur charmander growlMove = 0 ∧
    Battle.calculate_damage bulbasaur charmander tackleMove =
      pyInt ((((2 * (bulbasaur.level : ℚ) / 5 * 2) * (tackleMove.power : ℚ) *
        (((bulbasaur.attack : ℚ) * bulbasaur.attack_modifier) /
          ((max 1 charmander.defense : ℤ) : ℚ))) / 50) + 2) :=
  ⟨(claim_C1 bulbasaur charmander growlMove).1 rfl,
   (claim_C1 bulbasaur charmander tackleMove).2.1 (by decide)⟩

/-- C3: `apply_damage` never makes `current_hp` negative, never increases
it for a non-negative damage amount, is a no-op on a fainted combatant,
and any finite sequence of non-negative damage applications preserves
`0 ≤ current_hp ≤ max_hp`. -/
theorem claim_C3 :
    (∀ (p : Pokemon) (d : ℤ), 0 ≤ (p.apply_damage d).current_hp) ∧
    (∀ (p : Pokemon) (d : ℤ), 0 ≤ d → 0 ≤ p.current_hp →
      (p.apply_damage d).current_hp ≤ p.current_hp) ∧
    (∀ (p : Pokemon) (d : ℤ), 0 ≤ d → p.current_hp = 0 → p.apply_damage d = p) ∧
    (∀ (p : Pokemon) (ds : List ℤ), (∀ x ∈ ds, 0 ≤ x) →
      0 ≤ p.current_hp → p.current_hp ≤ p.max_hp →
      0 ≤ (ds.foldl Pokemon.apply_damage p).current_hp ∧
      (ds.foldl Pokemon.apply_damage p).current_hp ≤
        (ds.foldl Pokemon.apply_damage p).max_hp) := by
  have hnn : ∀ (p : Pokemon) (d : ℤ), 0 ≤ (p.apply_damage d).current_hp := by
    intro p d; simp [Pokemon.apply_damage]
  have hmono : ∀ (p : Pokemon) (d : ℤ), 0 ≤ d → 0 ≤ p.current_hp →
      (p.apply_damage d).current_hp ≤ p.current_hp := by
    intro p d hd h0
    simp only [Pokemon.apply_damage]
    omega
  have hmax : ∀ (p : Pokemon) (d : ℤ), (p.apply_damage d).max_hp = p.max_hp := by
    intro p d; rfl
  refine ⟨hnn, hmono, ?_, ?_⟩
  · intro p d hd h0
    have : max (p.current_hp - d) 0 = p.current_hp := by omega
    simp [Pokemon.apply_damage, this]
  · intro p ds
    induction ds generalizing p with
    | nil => intro _ h1 h2; exact ⟨h1, h2⟩
    | cons d rest ih =>
      intro hall h1 h2
      have hd : 0 ≤ d := hall d (by simp)
      refine ih (p.apply_damage d) (fun x hx => hall x (by simp [hx])) (hnn p d) ?_
      rw [hmax]
      exact le_trans (hmono p d hd h1) h2

/-- Witness for C3: Bulbasaur at full HP hit for 3, then 100, then 7
damage stays inside `[0, max_hp]`; a fainted combatant is unchanged. -/
theorem claim_C3_witness :
    (0 ≤ (([3, 100, 7] : List ℤ).foldl Pokemon.apply_damage bulbasaur).current_hp ∧
      (([3, 100, 7] : List ℤ).foldl Pokemon.apply_damage bulbasaur).current_hp ≤
        (([3, 100, 7] : List ℤ).foldl Pokemon.apply_damage bulbasaur).max_hp) ∧
    Pokemon.apply_damage { bulbasaur with current_hp := 0 } 5 =
      { bulbasaur with current_hp := 0 } :=
  ⟨claim_C3.2.2.2 bulbasaur [3, 100, 7] (by decide) (by decide) (by decide),
   claim_C3.2.2.1 { bulbasaur with current_hp := 0 } 5 (by decide) rfl⟩

/-- C8: in `take_turn` the combatant with strictly greater speed acts
first, and a speed tie resolves player-first (deterministically); the
first action `take_turn` executes is the one flagged with `playerFirst`. -/
theorem claim_C8 (b : Battle) :
    (b.enemy.speed < b.player.speed → b.playerFirst = true) ∧
    (b.player.speed < b.enemy.speed → b.playerFirst = false) ∧
    (b.player.speed = b.enemy.speed → b.playerFirst = true) ∧
    (∀ (pm em : String) (rolls : List ℤ) (mp me : Move),
      MOVE_DATA pm = some mp → MOVE_DATA em = some me →
      b.take_turn pm em rolls = some
        ((Battle.doAction (Battle.doAction (b, rolls) b.playerFirst
            (if b.playerFirst then mp else me)) (!b.playerFirst)
            (if b.playerFirst then me else mp)).1)) := by
  refine ⟨?_, ?_, ?_, ?_⟩
  · intro h; simp only [Battle.playerFirst, decide_eq_true_eq]; omega
  · intro h; simp only [Battle.playerFirst, decide_eq_false_iff_not]; omega
  · intro h; simp only [Battle.playerFirst, decide_eq_true_eq]; omega
  · intro pm em rolls mp me h1 h2
    simp [Battle.take_turn, h1, h2]

/-- Witness for C8: a Bulbasaur mirror match is a speed tie and resolves
player-first; the tie-break involves no randomness (it is a pure function
of the two speeds). -/
theorem claim_C8_witness :
    Battle.playerFirst cexBattle = true ∧
    Battle.take_turn cexBattle "tackle" "growl" [50, 50] = some
      ((Battle.doAction (Battle.doAction (cexBattle, [50, 50]) cexBattle.playerFirst
          (if cexBattle.playerFirst then tackleMove else growlMove)) (!cexBattle.playerFirst)
          (if cexBattle.playerFirst then growlMove else tackleMove)).1) :=
  ⟨(claim_C8 cexBattle).1 (by decide),
   (claim_C8 cexBattle).2.2.2 "tackle" "growl" [50, 50] tackleMove growlMove rfl rfl⟩

/-- C4: a battle whose result is terminal answers every further turn
submission with its current serialized state and an empty `turn_log`, and
the registry is left unchanged by any number of such submissions. -/
theorem claim_C4 (reg : Reg) (battle_id : String) (battle : Battle)
    (hb : regGet reg battle_id = some battle)
    (hres : battle.resolving = false)
    (hterm : battle.get_result ≠ "ongoing") :
    (∀ (pm em : String) (rolls : List ℤ),
      battle_turn reg battle_id pm em rolls =
        (.ok { state := battle.serialize, battle_id := battle_id, turn_log := [] }, reg)) ∧
    (∀ subs : List (String × String × List ℤ), runEndpoint battle_id reg subs = reg) := by
  have hone : ∀ (pm em : String) (rolls : List ℤ),
      battle_turn reg battle_id pm em rolls =
        (.ok { state := battle.serialize, battle_id := battle_id, turn_log := [] }, reg) := by
    intro pm em rolls
    simp [battle_turn, hb, hres, hterm]
  refine ⟨hone, ?_⟩
  intro subs
  induction subs with
  | nil => rfl
  | cons s rest ih =>
    show runEndpoint battle_id (battle_turn reg battle_id s.1 s.2.1 s.2.2).2 rest = reg
    rw [hone s.1 s.2.1 s.2.2]
    exact ih

/-- C9: if the battle's guard is clear when a turn submission starts, it
is clear again on every exit path (normal completion or the propagated
exception of turn resolution) whenever the battle is still registered;
and a submission that arrives while the guard is set fails with
`turnInProgress` and leaves the registry untouched. -/
theorem claim_C9 (reg : Reg) (battle_id pm em : String) (rolls : List ℤ)
    (battle : Battle) :
    (regGet reg battle_id = some battle → battle.resolving = false →
      ∀ b', regGet (battle_turn reg battle_id pm em rolls).2 battle_id = some b' →
        b'.resolving = false) ∧
    (regGet reg battle_id = some battle → battle.resolving = true →
      battle_turn reg battle_id pm em rolls = (.turnInProgress, reg)) := by
  constructor
  · intro hb hres b' hb'
    by_cases hterm : battle.get_result = "ongoing"
    · rcases htt : Battle.take_turn { battle with resolving := true } pm em rolls with _ | b1
      · have h2 : (battle_turn reg battle_id pm em rolls).2 =
            regSet reg battle_id
              { { battle with resolving := true } with resolving := false } := by
          simp [battle_turn, hb, hres, hterm, htt]
        rw [h2, regGet_regSet_self] at hb'
        cases hb'
        rfl
      · have h2 : (battle_turn reg battle_id pm em rolls).2 =
            regSet reg battle_id { b1 with resolving := false } := by
          simp [battle_turn, hb, hres, hterm, htt]
        rw [h2, regGet_regSet_self] at hb'
        cases hb'
        rfl
    · have h2 : (battle_turn reg battle_id pm em rolls).2 = reg := by
        simp [battle_turn, hb, hres, hterm]
      rw [h2, hb] at hb'
      cases hb'
      exact hres
  · intro hb hres
    simp [battle_turn, hb, hres]

/-- C6: capture fails with not-found when the id is absent (or falsy),
with not-allowed when the result is not `win`, with already-resolved when
a capture was attempted before; a resolved attempt sets the
capture-resolved flag whatever the roll, so a second attempt always gets
already-resolved. -/
theorem claim_C6 (reg : Reg) (battle_id : String) (roll roll2 : ℤ)
    (battle : Battle) :
    (battle_id = "" ∨ regGet reg battle_id = none →
      capture_pokemon reg battle_id roll = (.notFound, reg)) ∧
    (battle_id ≠ "" → regGet reg battle_id = some battle →
      battle.get_result ≠ "win" →
      capture_pokemon reg battle_id roll = (.notAllowed, reg)) ∧
    (battle_id ≠ "" → regGet reg battle_id = some battle →
      battle.get_result = "win" → battle.capture_resolved = true →
      capture_pokemon reg battle_id roll = (.alreadyResolved, reg)) ∧
    (battle_id ≠ "" → regGet reg battle_id = some battle →
      battle.get_result = "win" → battle.capture_resolved = false →
      (capture_pokemon reg battle_id roll).1 =
        .outcome (decide (roll ≤ captureChance battle.enemy)) ∧
      (capture_pokemon reg battle_id roll).2 =
        regSet reg battle_id { battle with capture_resolved := true } ∧
      (capture_pokemon (capture_pokemon reg battle_id roll).2 battle_id roll2).1 =
        .alreadyResolved) := by
  refine ⟨?_, ?_, ?_, ?_⟩
  · rintro (hid | hnone)
    · simp [capture_pokemon, hid]
    · by_cases hid : battle_id = ""
      · simp [capture_pokemon, hid]
      · simp [capture_pokemon, hid, hnone]
  · intro hid hb hw
    simp [capture_pokemon, hid, hb, hw]
  · intro hid hb hw hcr
    simp [capture_pokemon, hid, hb, hw, hcr]
  · intro hid hb hw hcr
    have h1 : (capture_pokemon reg battle_id roll).1 =
        .outcome (decide (roll ≤ captureChance battle.enemy)) := by
      simp [capture_pokemon, hid, hb, hw, hcr]
    have h2 : (capture_pokemon reg battle_id roll).2 =
        regSet reg battle_id { battle with capture_resolved := true } := by
      simp [capture_pokemon, hid, hb, hw, hcr]
    refine ⟨h1, h2, ?_⟩
    have hb2 : regGet (capture_pokemon reg battle_id roll).2 battle_id =
        some { battle with capture_resolved := true } := by
      rw [h2]; exact regGet_regSet_self reg battle_id _
    have hw2 : Battle.get_result { battle with capture_resolved := true } = "win" := hw
    rw [capture_already _ battle_id roll2 _ hid hb2 hw2 rfl]

/-- Witness for C4: the won Bulbasaur-vs-Squirtle battle answers a turn
submission with its serialized state and empty `turn_log`, and two more
submissions leave the registry unchanged. -/
theorem claim_C4_witness :
    battle_turn [("b1", cexBattleAfter)] "b1" "tackle" "tackle" [50, 50] =
      (.ok { state := cexBattleAfter.serialize, battle_id := "b1", turn_log := [] },
        [("b1", cexBattleAfter)]) ∧
    runEndpoint "b1" [("b1", cexBattleAfter)]
      [("tackle", "tackle", [50, 50]), ("growl", "growl", [])] =
      [("b1", cexBattleAfter)] :=
  ⟨(claim_C4 [("b1", cexBattleAfter)] "b1" cexBattleAfter rfl rfl
      (by decide)).1 "tackle" "tackle" [50, 50],
   (claim_C4 [("b1", cexBattleAfter)] "b1" cexBattleAfter rfl rfl
      (by decide)).2 [("tackle", "tackle", [50, 50]), ("growl", "growl", [])]⟩

/-- Witness for C9: the guard is clear after a turn on the concrete won
battle, and a submission against a battle whose guard is set gets
`turnInProgress` with the registry untouched. -/
theorem claim_C9_witness :
    cexBattleAfter.resolving = false ∧
    battle_turn [("b1", { cexBattle with resolving := true })] "b1" "tackle"
        "tackle" [50, 50] =
      (.turnInProgress, [("b1", { cexBattle with resolving := true })]) :=
  ⟨(claim_C9 [("b1", cexBattleAfter)] "b1" "tackle" "tackle" [50, 50]
      cexBattleAfter).1 rfl rfl cexBattleAfter rfl,
   (claim_C9 [("b1", { cexBattle with resolving := true })] "b1" "tackle"
      "tackle" [50, 50] { cexBattle with resolving := true }).2 rfl rfl⟩

/-- Witness for C6: on the concrete won battle a capture resolves to an
outcome, and the immediate second attempt is rejected as already
resolved. -/
theorem claim_C6_witness :
    (capture_pokemon [("b1", cexBattleAfter)] "b1" 50).1 =
      .outcome (decide ((50 : ℤ) ≤ captureChance cexBattleAfter.enemy)) ∧
    (capture_pokemon (capture_pokemon [("b1", cexBattleAfter)] "b1" 50).2
        "b1" 99).1 = .alreadyResolved := by
  have h := (claim_C6 [("b1", cexBattleAfter)] "b1" 50 99 cexBattleAfter).2.2.2
    (by decide) rfl rfl rfl
  exact ⟨h.1, h.2.2⟩

/-- C2: the capture chance is `min(95, 35 + trunc(clamp(1 - cur/max, 0, 1) * 55))`;
it is 35 at full enemy HP, 90 at 0 HP, 88 for an enemy at 1/45 HP, never
exceeds 95, and a capture on a won battle succeeds iff the [1,100] draw
is at most the chance. -/
theorem claim_C2 (e : Pokemon) (reg : Reg) (battle_id : String) (roll : ℤ)
    (battle : Battle) :
    captureChance e =
      min 95 (35 + pyInt (max 0 (min 1 (1 - ((max 0 e.current_hp : ℤ) : ℚ) /
        ((max 1 e.max_hp : ℤ) : ℚ))) * 55)) ∧
    (e.current_hp = e.max_hp → 1 ≤ e.max_hp → captureChance e = 35) ∧
    (e.current_hp = 0 → captureChance e = 90) ∧
    (e.current_hp = 1 → e.max_hp = 45 → captureChance e = 88) ∧
    captureChance e ≤ 95 ∧
    (battle_id ≠ "" → regGet reg battle_id = some battle →
      battle.get_result = "win" → battle.capture_resolved = false →
      (capture_pokemon reg battle_id roll).1 =
        .outcome (decide (roll ≤ captureChance battle.enemy))) := by
  refine ⟨rfl, ?_, ?_, ?_, min_le_left _ _, ?_⟩
  · intro h1 h2
    have hM : max 1 e.max_hp = e.max_hp := max_eq_right h2
    have hc : max 0 e.current_hp = e.current_hp := max_eq_right (by omega)
    have hz : ((e.max_hp : ℤ) : ℚ) ≠ 0 := by
      exact_mod_cast (by omega : e.max_hp ≠ 0)
    have key : max 0 (min 1 (1 - ((max 0 e.current_hp : ℤ) : ℚ) /
        ((max 1 e.max_hp : ℤ) : ℚ))) * 55 = 0 := by
      rw [hM, hc, h1, div_self hz]; norm_num
    show min 95 (35 + pyInt (max 0 (min 1 (1 - ((max 0 e.current_hp : ℤ) : ℚ) /
      ((max 1 e.max_hp : ℤ) : ℚ))) * 55)) = 35
    rw [key, pyInt_eq 0 0 le_rfl (by norm_num) (by norm_num)]
    omega
  · intro h0
    have key : max 0 (min 1 (1 - ((max 0 e.current_hp : ℤ) : ℚ) /
        ((max 1 e.max_hp : ℤ) : ℚ))) * 55 = 55 := by
      rw [h0]; norm_num
    show min 95 (35 + pyInt (max 0 (min 1 (1 - ((max 0 e.current_hp : ℤ) : ℚ) /
      ((max 1 e.max_hp : ℤ) : ℚ))) * 55)) = 90
    rw [key, pyInt_eq 55 55 (by norm_num) (by norm_num) (by norm_num)]
    omega
  · intro h1 h45
    have key : max 0 (min 1 (1 - ((max 0 e.current_hp : ℤ) : ℚ) /
        ((max 1 e.max_hp : ℤ) : ℚ))) * 55 = 484 / 9 := by
      rw [h1, h45]; norm_num
    show min 95 (35 + pyInt (max 0 (min 1 (1 - ((max 0 e.current_hp : ℤ) : ℚ) /
      ((max 1 e.max_hp : ℤ) : ℚ))) * 55)) = 88
    rw [key, pyInt_eq (484 / 9) 53 (by norm_num) (by norm_num) (by norm_num)]
    omega
  · intro hid hb hw hcr
    simp [capture_pokemon, hid, hb, hw, hcr]

/-- Witness for C2: the Squirtle enemy fainted at 0/44 HP gives chance 90,
an enemy at 1/45 HP gives 88, a full-HP enemy gives 35, and the concrete
capture call at roll 90 succeeds. -/
theorem claim_C2_witness :
    captureChance { squirtleAt1 with current_hp := 0 } = 90 ∧
    captureChance { bulbasaur with current_hp := 1 } = 88 ∧
    captureChance squirtle = 35 ∧
    (capture_pokemon [("b1", cexBattleAfter)] "b1" 90).1 =
      .outcome (decide ((90 : ℤ) ≤ captureChance cexBattleAfter.enemy)) :=
  ⟨(claim_C2 { squirtleAt1 with current_hp := 0 } [] "" 0 cexBattle).2.2.1 rfl,
   (claim_C2 { bulbasaur with current_hp := 1 } [] "" 0 cexBattle).2.2.2.1 rfl rfl,
   (claim_C2 squirtle [] "" 0 cexBattle).2.1 rfl (by decide),
   (claim_C2 cexBattleAfter.enemy [("b1", cexBattleAfter)] "b1" 90
      cexBattleAfter).2.2.2.2.2 (by decide) rfl rfl rfl⟩

lemma doAction_log (st : Battle × List ℤ) (f : Bool) (m : Move) :
    ∃ d, (Battle.doAction st f m).1.log = st.1.log ++ d := by
  unfold Battle.doAction
  dsimp only
  split <;>
  [skip; skip] <;>
  · split
    · exact ⟨[], by simp⟩
    · split
      · exact ⟨_, rfl⟩
      · split
        · exact ⟨_, rfl⟩
        · split
          · exact ⟨_, rfl⟩
          · exact ⟨[], by simp⟩

lemma take_turn_log (b : Battle) (pm em : String) (rolls : List ℤ) (b1 : Battle)
    (h : b.take_turn pm em rolls = some b1) :
    ∃ d, b1.log = b.log ++ d := by
  unfold Battle.take_turn at h
  rcases hpm : MOVE_DATA pm with _ | mp
  · rw [hpm] at h; simp at h
  rcases hem : MOVE_DATA em with _ | me
  · rw [hpm, hem] at h; simp at h
  rw [hpm, hem] at h
  dsimp only at h
  obtain ⟨d1, h1⟩ := doAction_log (b, rolls) b.playerFirst
    (if b.playerFirst then mp else me)
  obtain ⟨d2, h2⟩ := doAction_log
    (Battle.doAction (b, rolls) b.playerFirst (if b.playerFirst then mp else me))
    (!b.playerFirst) (if b.playerFirst then me else mp)
  cases h
  exact ⟨d1 ++ d2, by rw [h2, h1]; simp⟩

lemma collapseDups_chain (l : List String) :
    List.Chain' (fun x y => x ≠ y) (collapseDups l) := by
  suffices h : ∀ acc, List.Chain' (fun x y => x ≠ y) acc →
      List.Chain' (fun x y => x ≠ y)
        (l.foldl (fun acc line =>
          if acc.getLast? = some line then acc else acc ++ [line]) acc) by
    exact h [] (by simp)
  induction l with
  | nil => intro acc h; exact h
  | cons a rest ih =>
    intro acc h
    simp only [List.foldl_cons]
    apply ih
    by_cases hl : acc.getLast? = some a
    · rw [if_pos hl]; exact h
    · rw [if_neg hl]
      refine List.chain'_append.mpr ⟨h, List.chain'_singleton a, ?_⟩
      intro x hx y hy
      have hy' : a = y := by simpa using hy
      subst hy'
      exact fun he => hl (by rw [← he]; exact hx)

lemma collapseDups_pair (s : String) : collapseDups [s, s] = [s] := by
  simp [collapseDups]

lemma regGet_regDel (reg : Reg) (id : String) :
    regGet (regDel reg id) id = none := by
  induction reg with
  | nil => rfl
  | cons p rest ih =>
    by_cases hp : p.1 = id
    · simpa [regDel, List.filter_cons, hp] using ih
    · simpa [regDel, List.filter_cons, hp, regGet] using ih

lemma dmg_bulb_squirtle :
    Battle.calculate_damage bulbasaur squirtleAt1 tackleMove = 4 := by
  unfold Battle.calculate_damage
  rw [if_neg (by decide : ¬tackleMove.power = 0)]
  refine pyInt_eq _ 4 ?_ ?_ ?_ <;>
    norm_num [bulbasaur, squirtleAt1, squirtle, tackleMove, max_def]

lemma cex_action1 :
    Battle.doAction ({ cexBattle with resolving := true }, [50, 50]) true tackleMove =
      ({ cexBattle with
          resolving := true
          enemy := squirtleAt1.apply_damage
            (Battle.calculate_damage bulbasaur squirtleAt1 tackleMove)
          log := ["Bulbasaur used Tackle! Squirtle took " ++
            toString (Battle.calculate_damage bulbasaur squirtleAt1 tackleMove) ++
            " damage."] }, [50]) := rfl

lemma cex_take :
    Battle.take_turn { cexBattle with resolving := true } "tackle" "tackle" [50, 50] =
      some { cexBattleAfter with resolving := true } := by
  have h1 : Battle.doAction ({ cexBattle with resolving := true }, [50, 50]) true
      tackleMove =
      ({ cexBattle with
          resolving := true
          enemy := squirtleAt1.apply_damage (4 : ℤ)
          log := ["Bulbasaur used Tackle! Squirtle took " ++ toString (4 : ℤ) ++
            " damage."] }, [50]) := by
    rw [cex_action1, dmg_bulb_squirtle]
  show some ((Battle.doAction
      (Battle.doAction ({ cexBattle with resolving := true }, [50, 50])
        (Battle.playerFirst { cexBattle with resolving := true })
        tackleMove) (!Battle.playerFirst { cexBattle with resolving := true })
      tackleMove).1) = _
  rw [show Battle.playerFirst { cexBattle with resolving := true } = true from rfl]
  rw [h1]
  rfl

/-- C7: the `turn_log` a turn submission returns is exactly the lines
appended to the battle log during that call with consecutive duplicates
collapsed (so it never contains two equal adjacent lines, and a doubled
line collapses to one), while the battle's full running log keeps every
appended line. -/
theorem claim_C7 (reg : Reg) (battle_id pm em : String) (rolls : List ℤ)
    (battle battle1 : Battle)
    (hb : regGet reg battle_id = some battle)
    (hres : battle.resolving = false)
    (hon : battle.get_result = "ongoing")
    (ht : Battle.take_turn { battle with resolving := true } pm em rolls =
      some battle1) :
    ∃ delta, battle1.log = battle.log ++ delta ∧
      (battle_turn reg battle_id pm em rolls).1 =
        .ok { state := battle1.serialize, battle_id := battle_id,
              turn_log := collapseDups delta } ∧
      List.Chain' (fun x y => x ≠ y) (collapseDups delta) ∧
      (∀ s : String, collapseDups [s, s] = [s]) ∧
      battle1.serialize.message_log = battle.log ++ delta := by
  obtain ⟨delta, hlog⟩ := take_turn_log { battle with resolving := true } pm em
    rolls battle1 ht
  refine ⟨delta, hlog, ?_, collapseDups_chain delta, collapseDups_pair, ?_⟩
  · have hdrop : battle1.log.drop battle.log.length = delta := by
      rw [hlog]; exact List.drop_left _ _
    simp [battle_turn, hb, hres, hon, ht, hdrop]
  · show battle1.log = battle.log ++ delta
    exact hlog

/-- Witness for C7: in the concrete Bulbasaur-vs-weakened-Squirtle turn the
returned delta is the deduplicated single appended line. -/
theorem claim_C7_witness :
    (battle_turn cexReg "b1" "tackle" "tackle" [50, 50]).1 =
      .ok { state := Battle.serialize { cexBattleAfter with resolving := true },
            battle_id := "b1",
            turn_log :=
              collapseDups ["Bulbasaur used Tackle! Squirtle took 4 damage."] } := by
  obtain ⟨delta, hlog, hresp, _, _, _⟩ := claim_C7 cexReg "b1" "tackle" "tackle"
    [50, 50] cexBattle { cexBattleAfter with resolving := true } rfl rfl rfl cex_take
  have hd : delta = ["Bulbasaur used Tackle! Squirtle took 4 damage."] := by
    simpa [cexBattleAfter, cexBattle] using hlog.symm
  rw [hd] at hresp
  exact hresp

lemma battle_turn_run (reg : Reg) (battle_id pm em : String) (rolls : List ℤ)
    (battle battle1 : Battle)
    (hb : regGet reg battle_id = some battle)
    (hres : battle.resolving = false)
    (hon : battle.get_result = "ongoing")
    (ht : Battle.take_turn { battle with resolving := true } pm em rolls =
      some battle1) :
    battle_turn reg battle_id pm em rolls =
      (.ok { state := battle1.serialize
             battle_id := battle_id
             turn_log := collapseDups (battle1.log.drop battle.log.length) },
       regSet reg battle_id { battle1 with resolving := false }) := by
  simp [battle_turn, hb, hres, hon, ht]

lemma battle_turn_mvp_run (reg : Reg) (battle_id pm em : String) (rolls : List ℤ)
    (battle battle1 : Battle)
    (hb : regGet reg battle_id = some battle)
    (hres : battle.resolving = false)
    (hon : battle.get_result = "ongoing")
    (ht : Battle.take_turn { battle with resolving := true } pm em rolls =
      some battle1)
    (hterm : battle1.get_result ≠ "ongoing") :
    battle_turn_mvp reg battle_id pm em rolls =
      (.ok { state := battle1.serialize
             battle_id := battle_id
             turn_log := collapseDups (battle1.log.drop battle.log.length) },
       regDel reg battle_id) := by
  have hterm' : battle1.serialize.status ≠ "ongoing" := hterm
  simp [battle_turn_mvp, hb, hres, hon, ht, hterm']

/-- C5 (amended): in the prototype variant (`MVP_backend`), a turn whose
result becomes terminal evicts the battle after the response is built, so
that call still reports the final state while later lookups miss; in the
live backend variant (`backend`) the battle is never evicted by turn
resolution and stays registered with the guard cleared. -/
theorem claim_C5 (reg : Reg) (battle_id pm em : String) (rolls : List ℤ)
    (battle battle1 : Battle)
    (hb : regGet reg battle_id = some battle)
    (hres : battle.resolving = false)
    (hon : battle.get_result = "ongoing")
    (ht : Battle.take_turn { battle with resolving := true } pm em rolls =
      some battle1)
    (hterm : battle1.get_result ≠ "ongoing") :
    (∃ payload, (battle_turn_mvp reg battle_id pm em rolls).1 = .ok payload ∧
      payload.state = battle1.serialize ∧
      payload.state.status = battle1.get_result) ∧
    regGet (battle_turn_mvp reg battle_id pm em rolls).2 battle_id = none ∧
    regGet (battle_turn reg battle_id pm em rolls).2 battle_id =
      some { battle1 with resolving := false } := by
  have hmvp := battle_turn_mvp_run reg battle_id pm em rolls battle battle1
    hb hres hon ht hterm
  have hlive := battle_turn_run reg battle_id pm em rolls battle battle1
    hb hres hon ht
  refine ⟨⟨{ state := battle1.serialize
             battle_id := battle_id
             turn_log := collapseDups (battle1.log.drop battle.log.length) },
      ?_, rfl, rfl⟩, ?_, ?_⟩
  · rw [hmvp]
  · rw [hmvp]
    exact regGet_regDel reg battle_id
  · rw [hlive]
    exact regGet_regSet_self reg battle_id _

/-- Counterexample to C5 as stated: in the live backend variant a turn
that ends the battle with a win leaves the battle in the registry — the
response carries the terminal state, yet a later lookup of the id still
finds an entry. -/
theorem claim_C5_counterexample :
    (battle_turn cexReg "b1" "tackle" "tackle" [50, 50]).1 =
      .ok { state := Battle.serialize { cexBattleAfter with resolving := true }
            battle_id := "b1"
            turn_log := ["Bulbasaur used Tackle! Squirtle took 4 damage."] } ∧
    Battle.get_result { cexBattleAfter with resolving := true } = "win" ∧
    regGet (battle_turn cexReg "b1" "tackle" "tackle" [50, 50]).2 "b1" =
      some cexBattleAfter := by
  have hrun := battle_turn_run cexReg "b1" "tackle" "tackle" [50, 50] cexBattle
    { cexBattleAfter with resolving := true } rfl rfl rfl cex_take
  refine ⟨?_, rfl, ?_⟩
  · rw [hrun]
    rfl
  · rw [hrun]
    exact regGet_regSet_self cexReg "b1" _

/-- Witness for C5 (amended): on the concrete winning turn the prototype
variant evicts the battle while the live variant keeps it registered. -/
theorem claim_C5_witness :
    regGet (battle_turn_mvp cexReg "b1" "tackle" "tackle" [50, 50]).2 "b1" = none ∧
    regGet (battle_turn cexReg "b1" "tackle" "tackle" [50, 50]).2 "b1" =
      some { { cexBattleAfter with resolving := true } with resolving := false } := by
  have h := claim_C5 cexReg "b1" "tackle" "tackle" [50, 50] cexBattle
    { cexBattleAfter with resolving := true } rfl rfl rfl cex_take (by decide)
  exact ⟨h.2.1, h.2.2⟩


lemma doAction_skip (st : Battle × List ℤ) (f : Bool) (m : Move)
    (h : st.1.player.is_fainted = true ∨ st.1.enemy.is_fainted = true) :
    Battle.doAction st f m = st := by
  unfold Battle.doAction
  dsimp only
  cases f <;> rcases h with h | h <;> simp [h]

lemma calc_damage_ge_two (a d : Pokemon) (m : Move) (hp : 0 < m.power)
    (hl : 0 ≤ a.level) (ha : 0 ≤ a.attack) (ham : 0 ≤ a.attack_modifier) :
    2 ≤ Battle.calculate_damage a d m := by
  unfold Battle.calculate_damage
  rw [if_neg (by omega : ¬m.power = 0)]
  have hl' : (0 : ℚ) ≤ (a.level : ℚ) := by exact_mod_cast hl
  have ha' : (0 : ℚ) ≤ (a.attack : ℚ) * a.attack_modifier :=
    mul_nonneg (by exact_mod_cast ha) ham
  have hpw : (0 : ℚ) ≤ (m.power : ℚ) := by exact_mod_cast le_of_lt hp
  have hdf : (0 : ℚ) ≤ ((max 1 d.defense : ℤ) : ℚ) := by
    have : (1 : ℤ) ≤ max 1 d.defense := le_max_left 1 d.defense
    exact_mod_cast le_trans zero_le_one this
  have hX : (0 : ℚ) ≤ ((2 * (a.level : ℚ) / 5 * 2) * (m.power : ℚ) *
      ((a.attack : ℚ) * a.attack_modifier / ((max 1 d.defense : ℤ) : ℚ))) / 50 := by
    apply div_nonneg _ (by norm_num)
    apply mul_nonneg (mul_nonneg _ hpw) (div_nonneg ha' hdf)
    apply mul_nonneg (div_nonneg (by linarith) (by norm_num)) (by norm_num)
  refine pyInt_le _ 2 (by linarith) ?_
  have h2 : ((2 : ℤ) : ℚ) = 2 := by norm_cast
  rw [h2]
  linarith

lemma get_result_ongoing (b : Battle) (h : b.get_result = "ongoing") :
    0 < b.player.current_hp ∧ 0 < b.enemy.current_hp := by
  unfold Battle.get_result at h
  split at h
  · simp at h
  · split at h
    · simp at h
    · rename_i h1 h2
      simp [Pokemon.is_fainted] at h1 h2
      omega

lemma get_result_win (b : Battle) (h : b.enemy.current_hp ≤ 0) :
    b.get_result = "win" := by
  simp [Battle.get_result, Pokemon.is_fainted, h]

lemma get_result_lose (b : Battle) (he : 0 < b.enemy.current_hp)
    (hp : b.player.current_hp ≤ 0) : b.get_result = "lose" := by
  have h1 : b.enemy.is_fainted = false := by
    simp [Pokemon.is_fainted]; omega
  have h2 : b.player.is_fainted = true := by
    simp [Pokemon.is_fainted]; omega
  simp [Battle.get_result, h1, h2]

lemma apply_damage_ok (p : Pokemon) (d : ℤ) (h : PokemonOK p) :
    PokemonOK (p.apply_damage d) :=
  ⟨h.1, h.2.1, h.2.2.1, h.2.2.2.1, by simp [Pokemon.apply_damage]⟩

lemma apply_stat_ok (p : Pokemon) (n : String) (h : PokemonOK p) :
    PokemonOK (p.apply_stat_change n) := by
  unfold Pokemon.apply_stat_change
  split
  · exact ⟨h.1, h.2.1, h.2.2.1, mul_nonneg h.2.2.2.1 (by norm_num), h.2.2.2.2⟩
  · exact h

lemma apply_damage_lt (p : Pokemon) (d : ℤ) (h0 : 0 < p.current_hp)
    (hd : 0 < d) : (p.apply_damage d).current_hp < p.current_hp := by
  simp only [Pokemon.apply_damage]
  omega

lemma drawRoll_bound (l : List ℤ) (hl : ∀ r ∈ l, r ≤ 100) :
    (drawRoll l).1 ≤ 100 ∧ ∀ r ∈ (drawRoll l).2, r ≤ 100 := by
  cases l with
  | nil => exact ⟨by norm_num [drawRoll], by simp [drawRoll]⟩
  | cons a t =>
    exact ⟨hl a (by simp), fun r hr => hl r (by simp [drawRoll] at hr ⊢; simp [hr])⟩

lemma is_fainted_false (p : Pokemon) (h : 0 < p.current_hp) :
    p.is_fainted = false := by
  simp [Pokemon.is_fainted]; omega

lemma doAction_tackle_player_proj (st : Battle × List ℤ)
    (hp : st.1.player.is_fainted = false) (he : st.1.enemy.is_fainted = false)
    (hr : (drawRoll st.2).1 ≤ 100) :
    (Battle.doAction st true tackleMove).1.player = st.1.player ∧
    (Battle.doAction st true tackleMove).1.enemy =
      st.1.enemy.apply_damage
        (Battle.calculate_damage st.1.player st.1.enemy tackleMove) ∧
    (Battle.doAction st true tackleMove).2 = (drawRoll st.2).2 := by
  unfold Battle.doAction
  have hacc : ¬((100 : ℤ) < (drawRoll st.2).1) := by omega
  simp [hp, he, tackleMove, hacc]

lemma doAction_tackle_enemy_proj (st : Battle × List ℤ)
    (hp : st.1.player.is_fainted = false) (he : st.1.enemy.is_fainted = false)
    (hr : (drawRoll st.2).1 ≤ 100) :
    (Battle.doAction st false tackleMove).1.player =
      st.1.player.apply_damage
        (Battle.calculate_damage st.1.enemy st.1.player tackleMove) ∧
    (Battle.doAction st false tackleMove).1.enemy = st.1.enemy ∧
    (Battle.doAction st false tackleMove).2 = (drawRoll st.2).2 := by
  unfold Battle.doAction
  have hacc : ¬((100 : ℤ) < (drawRoll st.2).1) := by omega
  simp [hp, he, tackleMove, hacc]

lemma doAction_growl_enemy_proj (st : Battle × List ℤ)
    (hp : st.1.player.is_fainted = false) (he : st.1.enemy.is_fainted = false)
    (hr : (drawRoll st.2).1 ≤ 100) :
    (Battle.doAction st false growlMove).1.player =
      st.1.player.apply_stat_change growlMove.name ∧
    (Battle.doAction st false growlMove).1.enemy = st.1.enemy ∧
    (Battle.doAction st false growlMove).2 = (drawRoll st.2).2 := by
  unfold Battle.doAction
  have hacc : ¬((100 : ℤ) < (drawRoll st.2).1) := by omega
  simp [hp, he, growlMove, hacc]

lemma str_ne_lose_ongoing : ("lose" : String) ≠ "ongoing" := by decide

lemma turn_progress (b : Battle) (em : String) (mv : Move) (rolls : List ℤ)
    (hem : MOVE_DATA em = some mv)
    (hmv : mv = tackleMove ∨ mv = growlMove)
    (hrolls : ∀ r ∈ rolls, r ≤ 100)
    (hP : PokemonOK b.player) (hE : PokemonOK b.enemy)
    (hon : b.get_result = "ongoing") :
    ∃ b', b.take_turn "tackle" em rolls = some b' ∧
      PokemonOK b'.player ∧ PokemonOK b'.enemy ∧
      (b'.get_result ≠ "ongoing" ∨ b'.enemy.current_hp < b.enemy.current_hp) := by
  obtain ⟨hpP, hpE⟩ := get_result_ongoing b hon
  have hfP : b.player.is_fainted = false := is_fainted_false _ hpP
  have hfE : b.enemy.is_fainted = false := is_fainted_false _ hpE
  obtain ⟨hr1, hrest⟩ := drawRoll_bound rolls hrolls
  have hDp : 2 ≤ Battle.calculate_damage b.player b.enemy tackleMove :=
    calc_damage_ge_two _ _ _ (by decide) hP.1 hP.2.1 hP.2.2.2.1
  unfold Battle.take_turn
  rw [show MOVE_DATA "tackle" = some tackleMove from rfl, hem]
  cases hf : b.playerFirst
  · -- enemy acts first
    simp only [hf, Bool.not_false, Bool.false_eq_true, reduceIte]
    rcases hmv with rfl | rfl
    · -- enemy tackles, then (if still standing) the player tackles
      obtain ⟨e1p, e1e, e1r⟩ :=
        doAction_tackle_enemy_proj (b, rolls) hfP hfE hr1
      dsimp only at e1p e1e e1r
      by_cases hq :
          (Battle.doAction (b, rolls) false tackleMove).1.player.is_fainted = true
      · rw [doAction_skip _ true _ (Or.inl hq)]
        refine ⟨_, rfl, ?_, ?_, Or.inl ?_⟩
        · rw [e1p]; exact apply_damage_ok _ _ hP
        · rw [e1e]; exact hE
        · have hhp : (Battle.doAction (b, rolls) false
              tackleMove).1.player.current_hp ≤ 0 := by
            simpa [Pokemon.is_fainted] using hq
          have hee : 0 < (Battle.doAction (b, rolls) false
              tackleMove).1.enemy.current_hp := by rw [e1e]; exact hpE
          rw [get_result_lose _ hee hhp]
          exact str_ne_lose_ongoing
      · have hq' : (Battle.doAction (b, rolls) false
            tackleMove).1.player.is_fainted = false := eq_false_of_ne_true hq
        have he1 : (Battle.doAction (b, rolls) false
            tackleMove).1.enemy.is_fainted = false := by rw [e1e]; exact hfE
        have hr2 : (drawRoll (Battle.doAction (b, rolls) false tackleMove).2).1
            ≤ 100 := by rw [e1r]; exact (drawRoll_bound _ hrest).1
        obtain ⟨e2p, e2e, e2r⟩ :=
          doAction_tackle_player_proj _ hq' he1 hr2
        refine ⟨_, rfl, ?_, ?_, Or.inr ?_⟩
        · rw [e2p, e1p]; exact apply_damage_ok _ _ hP
        · rw [e2e, e1e]; exact apply_damage_ok _ _ hE
        · rw [e2e, e1e]
          apply apply_damage_lt _ _ hpE
          have h2 : 2 ≤ Battle.calculate_damage
              (Battle.doAction (b, rolls) false tackleMove).1.player
              b.enemy tackleMove := by
            have hok : PokemonOK (Battle.doAction (b, rolls) false
                tackleMove).1.player := by rw [e1p]; exact apply_damage_ok _ _ hP
            exact calc_damage_ge_two _ _ _ (by decide) hok.1 hok.2.1 hok.2.2.2.1
          omega
    · -- enemy growls, then the player tackles
      obtain ⟨e1p, e1e, e1r⟩ :=
        doAction_growl_enemy_proj (b, rolls) hfP hfE hr1
      dsimp only at e1p e1e e1r
      have hq' : (Battle.doAction (b, rolls) false
          growlMove).1.player.is_fainted = false := by
        rw [e1p]
        unfold Pokemon.apply_stat_change
        split <;> exact hfP
      have he1 : (Battle.doAction (b, rolls) false
          growlMove).1.enemy.is_fainted = false := by rw [e1e]; exact hfE
      have hr2 : (drawRoll (Battle.doAction (b, rolls) false growlMove).2).1
          ≤ 100 := by rw [e1r]; exact (drawRoll_bound _ hrest).1
      obtain ⟨e2p, e2e, e2r⟩ := doAction_tackle_player_proj _ hq' he1 hr2
      refine ⟨_, rfl, ?_, ?_, Or.inr ?_⟩
      · rw [e2p, e1p]; exact apply_stat_ok _ _ hP
      · rw [e2e, e1e]; exact apply_damage_ok _ _ hE
      · rw [e2e, e1e]
        apply apply_damage_lt _ _ hpE
        have hok : PokemonOK (Battle.doAction (b, rolls) false
            growlMove).1.player := by rw [e1p]; exact apply_stat_ok _ _ hP
        have h2 : 2 ≤ Battle.calculate_damage
            (Battle.doAction (b, rolls) false growlMove).1.player
            b.enemy tackleMove :=
          calc_damage_ge_two _ _ _ (by decide) hok.1 hok.2.1 hok.2.2.2.1
        omega
  · -- player acts first and tackles
    simp only [hf, Bool.not_true, reduceIte]
    obtain ⟨e1p, e1e, e1r⟩ := doAction_tackle_player_proj (b, rolls) hfP hfE hr1
    dsimp only at e1p e1e e1r
    have hlt : (Battle.doAction (b, rolls) true
        tackleMove).1.enemy.current_hp < b.enemy.current_hp := by
      rw [e1e]; exact apply_damage_lt _ _ hpE (by omega)
    by_cases hq :
        (Battle.doAction (b, rolls) true tackleMove).1.enemy.is_fainted = true
    · rw [doAction_skip _ false _ (Or.inr hq)]
      refine ⟨_, rfl, ?_, ?_, Or.inr hlt⟩
      · rw [e1p]; exact hP
      · rw [e1e]; exact apply_damage_ok _ _ hE
    · have hq' : (Battle.doAction (b, rolls) true
          tackleMove).1.enemy.is_fainted = false := eq_false_of_ne_true hq
      have hp1 : (Battle.doAction (b, rolls) true
          tackleMove).1.player.is_fainted = false := by rw [e1p]; exact hfP
      have hr2 : (drawRoll (Battle.doAction (b, rolls) true tackleMove).2).1
          ≤ 100 := by rw [e1r]; exact (drawRoll_bound _ hrest).1
      rcases hmv with rfl | rfl
      · obtain ⟨e2p, e2e, e2r⟩ := doAction_tackle_enemy_proj _ hp1 hq' hr2
        refine ⟨_, rfl, ?_, ?_, Or.inr ?_⟩
        · rw [e2p, e1p]; exact apply_damage_ok _ _ hP
        · rw [e2e, e1e]; exact apply_damage_ok _ _ hE
        · rw [e2e]; exact hlt
      · obtain ⟨e2p, e2e, e2r⟩ := doAction_growl_enemy_proj _ hp1 hq' hr2
        refine ⟨_, rfl, ?_, ?_, Or.inr ?_⟩
        · rw [e2p, e1p]; exact apply_stat_ok _ _ hP
        · rw [e2e, e1e]; exact apply_damage_ok _ _ hE
        · rw [e2e]; exact hlt

lemma take_turn_terminal (b : Battle) (em : String) (mv : Move)
    (rolls : List ℤ) (hem : MOVE_DATA em = some mv)
    (hterm : b.get_result ≠ "ongoing") :
    b.take_turn "tackle" em rolls = some b := by
  have hfaint : b.player.is_fainted = true ∨ b.enemy.is_fainted = true := by
    by_cases h1 : b.enemy.is_fainted = true
    · exact Or.inr h1
    by_cases h2 : b.player.is_fainted = true
    · exact Or.inl h2
    · exfalso
      apply hterm
      simp [Battle.get_result, eq_false_of_ne_true h1, eq_false_of_ne_true h2]
  unfold Battle.take_turn
  rw [show MOVE_DATA "tackle" = some tackleMove from rfl, hem]
  dsimp only
  rw [doAction_skip (b, rolls) _ _ hfaint, doAction_skip (b, rolls) _ _ hfaint]

lemma runTurns_terminal (script : List (String × List ℤ))
    (hv : ∀ s ∈ script, ∃ mv, MOVE_DATA s.1 = some mv)
    (b : Battle) (hterm : b.get_result ≠ "ongoing") :
    runTurns b script = some b := by
  induction script with
  | nil => rfl
  | cons s rest ih =>
    obtain ⟨mv, hmv⟩ := hv s (by simp)
    show (match b.take_turn "tackle" s.1 s.2 with
      | none => none
      | some b' => runTurns b' rest) = some b
    rw [take_turn_terminal b s.1 mv s.2 hmv hterm]
    exact ih (fun x hx => hv x (by simp [hx]))

lemma run_terminates : ∀ (script : List (String × List ℤ)),
    (∀ s ∈ script, (MOVE_DATA s.1 = some tackleMove ∨
        MOVE_DATA s.1 = some growlMove) ∧ ∀ r ∈ s.2, r ≤ 100) →
    ∀ b : Battle, PokemonOK b.player → PokemonOK b.enemy →
    b.enemy.current_hp.toNat ≤ script.length →
    ∃ b', runTurns b script = some b' ∧ b'.get_result ≠ "ongoing" := by
  intro script
  induction script with
  | nil =>
    intro hv b hP hE hlen
    refine ⟨b, rfl, ?_⟩
    have hhp : b.enemy.current_hp ≤ 0 := by
      simp at hlen
      omega
    rw [get_result_win b hhp]
    decide
  | cons s rest ih =>
    intro hv b hP hE hlen
    have hvv : ∀ x ∈ s :: rest, ∃ mv, MOVE_DATA x.1 = some mv := by
      intro x hx
      rcases (hv x hx).1 with h | h
      · exact ⟨_, h⟩
      · exact ⟨_, h⟩
    by_cases hterm : b.get_result = "ongoing"
    · obtain ⟨hmvor, hrls⟩ := hv s (by simp)
      obtain ⟨mv, hmv, hdisj⟩ : ∃ mv, MOVE_DATA s.1 = some mv ∧
          (mv = tackleMove ∨ mv = growlMove) := by
        rcases hmvor with h | h
        · exact ⟨_, h, Or.inl rfl⟩
        · exact ⟨_, h, Or.inr rfl⟩
      obtain ⟨b1, hrun1, hP1, hE1, hstep⟩ :=
        turn_progress b s.1 mv s.2 hmv hdisj hrls hP hE hterm
      have hrw : runTurns b (s :: rest) = runTurns b1 rest := by
        show (match b.take_turn "tackle" s.1 s.2 with
          | none => none
          | some b' => runTurns b' rest) = runTurns b1 rest
        rw [hrun1]
      rcases hstep with hterm1 | hdec
      · refine ⟨b1, ?_, hterm1⟩
        rw [hrw]
        exact runTurns_terminal rest (fun x hx => hvv x (by simp [hx])) b1 hterm1
      · have h0 : 0 < b.enemy.current_hp := (get_result_ongoing b hterm).2
        have hlen1 : b1.enemy.current_hp.toNat ≤ rest.length := by
          simp at hlen
          omega
        obtain ⟨b', hb', ht'⟩ := ih (fun x hx => hv x (by simp [hx])) b1 hP1 hE1 hlen1
        exact ⟨b', by rw [hrw]; exact hb', ht'⟩
    · exact ⟨b, runTurns_terminal (s :: rest) hvv b hterm, hterm⟩

lemma cex_action1' :
    Battle.doAction (cexBattle, [50, 50]) true tackleMove =
      ({ cexBattle with
          enemy := squirtleAt1.apply_damage
            (Battle.calculate_damage bulbasaur squirtleAt1 tackleMove)
          log := ["Bulbasaur used Tackle! Squirtle took " ++
            toString (Battle.calculate_damage bulbasaur squirtleAt1 tackleMove) ++
            " damage."] }, [50]) := rfl

lemma cex_take' :
    Battle.take_turn cexBattle "tackle" "tackle" [50, 50] = some cexBattleAfter := by
  have h1 : Battle.doAction (cexBattle, [50, 50]) true tackleMove =
      ({ cexBattle with
          enemy := squirtleAt1.apply_damage (4 : ℤ)
          log := ["Bulbasaur used Tackle! Squirtle took " ++ toString (4 : ℤ) ++
            " damage."] }, [50]) := by
    rw [cex_action1', dmg_bulb_squirtle]
  show some ((Battle.doAction (Battle.doAction (cexBattle, [50, 50])
      (Battle.playerFirst cexBattle) tackleMove)
      (!Battle.playerFirst cexBattle) tackleMove).1) = _
  rw [show Battle.playerFirst cexBattle = true from rfl]
  rw [h1]
  rfl

/-- C10: `calculate_damage` is at least 2 for any positive-power move and
non-negative stats (the additive constant survives truncation); positive
damage strictly decreases a non-fainted target's HP; hence with the player
always using Tackle and every accuracy roll landing (all rolls in the
[1,100] range, the only values `random.randint(1,100)` produces), a battle
reaches a terminal result within `enemy.current_hp` turns. -/
theorem claim_C10 :
    (∀ (a d : Pokemon) (m : Move), 0 < m.power → 0 ≤ a.level → 0 ≤ a.attack →
      0 ≤ a.attack_modifier → 0 ≤ d.defense →
      2 ≤ Battle.calculate_damage a d m) ∧
    (∀ (p : Pokemon) (dmg : ℤ), 0 < p.current_hp → 0 < dmg →
      (p.apply_damage dmg).current_hp < p.current_hp) ∧
    (∀ (script : List (String × List ℤ)),
      (∀ s ∈ script, (MOVE_DATA s.1 = some tackleMove ∨
          MOVE_DATA s.1 = some growlMove) ∧ ∀ r ∈ s.2, r ≤ 100) →
      ∀ b : Battle, PokemonOK b.player → PokemonOK b.enemy →
      b.enemy.current_hp.toNat ≤ script.length →
      ∃ b', runTurns b script = some b' ∧ b'.get_result ≠ "ongoing") :=
  ⟨fun a d m hp hl ha ham _ => calc_damage_ge_two a d m hp hl ha ham,
   fun p dmg h0 hd => apply_damage_lt p dmg h0 hd,
   run_terminates⟩

/-- Witness for C10: Tackle deals at least 2 between concrete starters, 4
damage strictly reduces the 1-HP Squirtle, and the concrete one-turn
script drives the Bulbasaur-vs-Squirtle battle to a terminal result. -/
theorem claim_C10_witness :
    2 ≤ Battle.calculate_damage bulbasaur charmander tackleMove ∧
    (squirtleAt1.apply_damage 4).current_hp < squirtleAt1.current_hp ∧
    cexBattleAfter.get_result ≠ "ongoing" := by
  obtain ⟨b', hb', ht'⟩ := claim_C10.2.2 [("tackle", [50, 50])] (by decide)
    cexBattle (by decide) (by decide) (by decide)
  have hrun : runTurns cexBattle [("tackle", [50, 50])] = some cexBattleAfter := by
    show (match Battle.take_turn cexBattle "tackle" "tackle" [50, 50] with
      | none => none
      | some b1 => runTurns b1 []) = some cexBattleAfter
    rw [cex_take']
    rfl
  rw [hrun] at hb'
  cases hb'
  exact ⟨claim_C10.1 bulbasaur charmander tackleMove (by decide) (by decide)
      (by decide) (by decide) (by decide),
    claim_C10.2.1 squirtleAt1 4 (by decide) (by decide),
    ht'⟩
